import Mathlib

/-!
Verification of the uitest UI runtime: a shallow embedding of the layout
engine (`Container`, `Stack`), the mouse-event router (`MouseEventRouter`,
`ListenerHandle`) and the button widget state machine, translated from
the Rust sources under `src/`.

Machine floats (`f32`/`f64`) are modelled by `Fl`: exact rational values
together with the two IEEE infinities and NaN.  Arithmetic on finite
values is exact rational arithmetic; the special values follow IEEE 754
semantics (which is what `f32` arithmetic does on those values).

Rationals are represented by `Q`, a numerator/denominator pair kept in
lowest terms with a positive denominator by every operation, so that all
arithmetic reduces inside the kernel and concrete runs of the embedded
program can be settled by `decide`.
-/

/-- An exact rational: numerator and denominator.  Every value built by the
operations below is normalized (positive denominator, lowest terms). -/
structure Q where
  num : ℤ
  den : ℤ
deriving DecidableEq, Repr

/-- Normalized fraction `n / d` (for `d ≠ 0`; `d = 0` is mapped to zero and
never produced by the embedding). -/
def Q.norm (n d : ℤ) : Q :=
  if d = 0 then ⟨0, 1⟩
  else
    let n := if d < 0 then -n else n
    let d := if d < 0 then -d else d
    let g : ℤ := Int.ofNat (Nat.gcd n.natAbs d.natAbs)
    ⟨n / g, d / g⟩

/-- Addition of rationals. -/
def Q.add (a b : Q) : Q := Q.norm (a.num * b.den + b.num * a.den) (a.den * b.den)

/-- Negation of rationals. -/
def Q.negate (a : Q) : Q := ⟨-a.num, a.den⟩

/-- Subtraction of rationals. -/
def Q.sub (a b : Q) : Q := a.add b.negate

/-- Multiplication of rationals. -/
def Q.mul (a b : Q) : Q := Q.norm (a.num * b.num) (a.den * b.den)

/-- Division of rationals. -/
def Q.div (a b : Q) : Q := Q.norm (a.num * b.den) (a.den * b.num)

/-- Order on rationals (cross multiplication; denominators are positive). -/
def Q.le (a b : Q) : Prop := a.num * b.den ≤ b.num * a.den

/-- Strict order on rationals. -/
def Q.lt (a b : Q) : Prop := a.num * b.den < b.num * a.den

instance : Add Q := ⟨Q.add⟩
instance : Neg Q := ⟨Q.negate⟩
instance : Sub Q := ⟨Q.sub⟩
instance : Mul Q := ⟨Q.mul⟩
instance : Div Q := ⟨Q.div⟩
instance : LE Q := ⟨Q.le⟩
instance : LT Q := ⟨Q.lt⟩

instance (a b : Q) : Decidable (a ≤ b) :=
  inferInstanceAs (Decidable (a.num * b.den ≤ b.num * a.den))

instance (a b : Q) : Decidable (a < b) :=
  inferInstanceAs (Decidable (a.num * b.den < b.num * a.den))

instance (n : ℕ) : OfNat Q n := ⟨⟨Int.ofNat n, 1⟩⟩

/-- The rational for a natural number. -/
def Q.ofNat (n : ℕ) : Q := ⟨Int.ofNat n, 1⟩

/-- Maximum of two rationals. -/
def Q.max (a b : Q) : Q := if a ≤ b then b else a

/-- Model of an `f32`/`f64` value: a finite rational, `+inf`, `-inf` or NaN. -/
inductive Fl where
  | fin (q : Q)
  | pinf
  | ninf
  | nan
deriving DecidableEq, Repr

/-- IEEE addition. -/
def Fl.add : Fl → Fl → Fl
  | .nan, _ => .nan
  | _, .nan => .nan
  | .fin a, .fin b => .fin (a + b)
  | .fin _, .pinf => .pinf
  | .pinf, .fin _ => .pinf
  | .pinf, .pinf => .pinf
  | .fin _, .ninf => .ninf
  | .ninf, .fin _ => .ninf
  | .ninf, .ninf => .ninf
  | .pinf, .ninf => .nan
  | .ninf, .pinf => .nan

/-- IEEE negation. -/
def Fl.neg : Fl → Fl
  | .fin a => .fin (-a)
  | .pinf => .ninf
  | .ninf => .pinf
  | .nan => .nan

/-- IEEE subtraction. -/
def Fl.sub (a b : Fl) : Fl := a.add b.neg

/-- IEEE multiplication (`0 * inf = NaN`). -/
def Fl.mul : Fl → Fl → Fl
  | .nan, _ => .nan
  | _, .nan => .nan
  | .fin a, .fin b => .fin (a * b)
  | .fin a, .pinf => if 0 < a then .pinf else if a < 0 then .ninf else .nan
  | .pinf, .fin a => if 0 < a then .pinf else if a < 0 then .ninf else .nan
  | .fin a, .ninf => if 0 < a then .ninf else if a < 0 then .pinf else .nan
  | .ninf, .fin a => if 0 < a then .ninf else if a < 0 then .pinf else .nan
  | .pinf, .pinf => .pinf
  | .pinf, .ninf => .ninf
  | .ninf, .pinf => .ninf
  | .ninf, .ninf => .pinf

/-- IEEE division.  The rational zero stands for `+0.0`. -/
def Fl.div : Fl → Fl → Fl
  | .nan, _ => .nan
  | _, .nan => .nan
  | .fin a, .fin b =>
    if b = 0 then (if a = 0 then .nan else if 0 < a then .pinf else .ninf)
    else .fin (a / b)
  | .fin _, .pinf => .fin 0
  | .fin _, .ninf => .fin 0
  | .pinf, .fin b => if 0 ≤ b then .pinf else .ninf
  | .ninf, .fin b => if 0 ≤ b then .ninf else .pinf
  | .pinf, .pinf => .nan
  | .pinf, .ninf => .nan
  | .ninf, .pinf => .nan
  | .ninf, .ninf => .nan

/-- IEEE `<=` comparison: any comparison with NaN is false. -/
def Fl.le : Fl → Fl → Bool
  | .nan, _ => false
  | _, .nan => false
  | .fin a, .fin b => decide (a ≤ b)
  | .fin _, .pinf => true
  | .pinf, .fin _ => false
  | .pinf, .pinf => true
  | .fin _, .ninf => false
  | .ninf, .fin _ => true
  | .ninf, .ninf => true
  | .ninf, .pinf => true
  | .pinf, .ninf => false

/-- Rust `f32::min`: if one argument is NaN the other is returned, else the smaller. -/
def Fl.min (a b : Fl) : Fl :=
  if a = .nan then b else if b = .nan then a else if a.le b then a else b

/-- Rust `f32::max`: if one argument is NaN the other is returned, else the larger. -/
def Fl.max (a b : Fl) : Fl :=
  if a = .nan then b else if b = .nan then a else if a.le b then b else a

/-- Rust `f32::is_finite`. -/
def Fl.isFinite : Fl → Bool
  | .fin _ => true
  | _ => false

instance : Add Fl := ⟨Fl.add⟩
instance : Neg Fl := ⟨Fl.neg⟩
instance : Sub Fl := ⟨Fl.sub⟩
instance : Mul Fl := ⟨Fl.mul⟩
instance : Div Fl := ⟨Fl.div⟩

/-- Model of `cgmath::Point2<f32>`. -/
structure Point2 where
  x : Fl
  y : Fl
deriving DecidableEq, Repr

/-- Model of `cgmath::Vector2<f32>`. -/
structure Vector2 where
  x : Fl
  y : Fl
deriving DecidableEq, Repr

/-- Point translated by a vector (`cgmath` point + vector addition). -/
def Point2.addV (p : Point2) (v : Vector2) : Point2 := ⟨p.x + v.x, p.y + v.y⟩

/-- Model of `RectSize<f32>` (src/src/element/rect.rs). -/
structure RectSize where
  width : Fl
  height : Fl
deriving DecidableEq, Repr

/-- `RectSize::new`. -/
def RectSize.new (width height : Fl) : RectSize := ⟨width, height⟩

/-- `RectSize::min` (src/src/element/rect.rs): `min` per axis. -/
def RectSize.min (a b : RectSize) : RectSize :=
  ⟨Fl.min a.width b.width, Fl.min a.height b.height⟩

/-- `RectSize::max` (src/src/element/rect.rs): `max` per axis. -/
def RectSize.max (a b : RectSize) : RectSize :=
  ⟨Fl.max a.width b.width, Fl.max a.height b.height⟩

/-- `RectSize::scaled` (src/src/element/rect.rs). -/
def RectSize.scaled (s : RectSize) (sh sv : Fl) : RectSize :=
  ⟨s.width * sh, s.height * sv⟩

/-- Model of `Bounds<f32>` (src/src/element/rect.rs). -/
structure Bounds where
  origin : Point2
  size : RectSize
deriving DecidableEq, Repr

/-- `Bounds::new`. -/
def Bounds.new (origin : Point2) (size : RectSize) : Bounds := ⟨origin, size⟩

/-- `Bounds::from_scalars`. -/
def Bounds.from_scalars (x_min y_min width height : Fl) : Bounds :=
  ⟨⟨x_min, y_min⟩, ⟨width, height⟩⟩

/-- `Bounds::x_min`. -/
def Bounds.x_min (b : Bounds) : Fl := b.origin.x

/-- `Bounds::y_min`. -/
def Bounds.y_min (b : Bounds) : Fl := b.origin.y

/-- `Bounds::width`. -/
def Bounds.width (b : Bounds) : Fl := b.size.width

/-- `Bounds::height`. -/
def Bounds.height (b : Bounds) : Fl := b.size.height

/-- `Bounds::x_max` (src/src/element/rect.rs). -/
def Bounds.x_max (b : Bounds) : Fl := b.origin.x + b.size.width

/-- `Bounds::y_max` (src/src/element/rect.rs). -/
def Bounds.y_max (b : Bounds) : Fl := b.origin.y + b.size.height

/-- `Bounds::contains` (src/src/element/rect.rs lines 96-101). -/
def Bounds.contains (b : Bounds) (p : Point2) : Bool :=
  (b.x_min).le p.x && p.x.le b.x_max && (b.y_min).le p.y && p.y.le b.y_max

/-- Model of `Axis` (src/src/view/axis.rs). -/
inductive Axis where
  | horizontal
  | vertical
deriving DecidableEq, Repr

/-- `RectSizeAxisExt::new_on_axis` (src/src/view/axis.rs). -/
def RectSize.new_on_axis (axis : Axis) (length_alpha length_beta : Fl) : RectSize :=
  match axis with
  | .horizontal => ⟨length_alpha, length_beta⟩
  | .vertical => ⟨length_beta, length_alpha⟩

/-- `RectSizeAxisExt::length_alpha` (src/src/view/axis.rs). -/
def RectSize.length_alpha (s : RectSize) (axis : Axis) : Fl :=
  match axis with
  | .horizontal => s.width
  | .vertical => s.height

/-- `RectSizeAxisExt::length_beta` (src/src/view/axis.rs). -/
def RectSize.length_beta (s : RectSize) (axis : Axis) : Fl :=
  match axis with
  | .horizontal => s.height
  | .vertical => s.width

/-- `Vector2::new_on_axis` (`Point2AxisExt`-style constructor, src/src/view/axis.rs). -/
def Vector2.new_on_axis (axis : Axis) (alpha beta : Fl) : Vector2 :=
  match axis with
  | .horizontal => ⟨alpha, beta⟩
  | .vertical => ⟨beta, alpha⟩

/-- Alpha-axis length of a `Bounds`, as used by `Stack::apply_bounds`
(`bounds.alpha(axis)`; the `axis_utils` module itself is not under `src/`, but
`BoundsAxisExt::length_alpha` in src/src/view/axis.rs is this function). -/
def Bounds.alpha (b : Bounds) (axis : Axis) : Fl := b.size.length_alpha axis

/-- Beta-axis length of a `Bounds` (`BoundsAxisExt::length_beta`, src/src/view/axis.rs). -/
def Bounds.beta (b : Bounds) (axis : Axis) : Fl := b.size.length_beta axis

/-- Modelled from the spec: `RectSize::scaled_on_axis`, used by `Stack::apply_bounds`
but defined in the `axis_utils` module which is not under `src/`.  The spec (section 4.4)
says the placed size is the measured size "scaled by (shrinkAlpha, shrinkBeta)" on the
(alpha, beta) axes, matching `RectSize::scaled` and the axis accessors of
src/src/view/axis.rs. -/
def RectSize.scaled_on_axis (s : RectSize) (axis : Axis) (scale_alpha scale_beta : Fl) : RectSize :=
  RectSize.new_on_axis axis (s.length_alpha axis * scale_alpha) (s.length_beta axis * scale_beta)

/-! ## Container (src/src/layout/container.rs) -/

/-- Model of `ContainerPadding` (src/src/layout/container.rs). -/
inductive ContainerPadding where
  | fixed (amount : Fl)
  | ratioOfViewSize (ratio : Fl)
  | spread
deriving DecidableEq, Repr

/-- `ContainerPadding::as_fixed`. -/
def ContainerPadding.as_fixed : ContainerPadding → Option Fl
  | .fixed v => some v
  | _ => none

/-- Model of `Container` (src/src/layout/container.rs).  The borrowed subview
reference is replaced by its cached preferred size `subview_size`, which is the
only thing measurement and bound assignment read from it. -/
structure Container where
  padding_left : ContainerPadding
  padding_right : ContainerPadding
  padding_top : ContainerPadding
  padding_bottom : ContainerPadding
  spread_ratio_horizontal : Fl
  spread_ratio_vertical : Fl
  subview_size : RectSize
  override_size : Option RectSize
deriving DecidableEq, Repr

/-- `Container::new` (src/src/layout/container.rs): all paddings `Fixed(0)`,
spread ratios `0.5`, subview size cached from the subview's `preferred_size`. -/
def Container.new (subview_size : RectSize) : Container :=
  { padding_left := .fixed (.fin 0)
    padding_right := .fixed (.fin 0)
    padding_top := .fixed (.fin 0)
    padding_bottom := .fixed (.fin 0)
    spread_ratio_horizontal := .fin (1/2)
    spread_ratio_vertical := .fin (1/2)
    subview_size := subview_size
    override_size := none }

/-- `Container::padding` (src/src/layout/container.rs lines 129-157): concrete
leading/trailing padding on one axis given the view length and the remaining
length on that axis. -/
def Container.padding (padding_leading padding_trailing : ContainerPadding)
    (spread_ratio view_length remaining_length : Fl) : Fl × Fl :=
  let padding : ContainerPadding → Fl := fun p =>
    match p with
    | .fixed f => f
    | .ratioOfViewSize ratio => ratio * view_length
    | .spread => spread_ratio * remaining_length
  match padding_leading, padding_trailing with
  | .spread, .spread => (spread_ratio * remaining_length, spread_ratio * remaining_length)
  | leading, .spread =>
    let padding_leading := padding leading
    (padding_leading, remaining_length - padding_leading)
  | .spread, trailing =>
    let padding_trailing := padding trailing
    (remaining_length - padding_trailing, padding_trailing)
  | leading, trailing => (padding leading, padding trailing)

/-- `Container::preferred_size` (src/src/layout/container.rs lines 165-185):
subview size (or override) plus both edges' paddings evaluated against an
infinite remaining length. -/
def Container.preferred_size (c : Container) : RectSize :=
  let subview_size := c.override_size.getD c.subview_size
  let pads_h := Container.padding c.padding_left c.padding_right
    c.spread_ratio_horizontal subview_size.width .pinf
  let pads_v := Container.padding c.padding_top c.padding_bottom
    c.spread_ratio_vertical subview_size.height .pinf
  { width := pads_h.1 + subview_size.width + pads_h.2
    height := pads_v.1 + subview_size.height + pads_v.2 }

/-! ## Stack (src/src/layout/stack.rs) -/

/-- Model of `StackPaddingType` (src/src/layout/stack.rs). -/
inductive StackPaddingType where
  | interpadded
  | omnipadded
deriving DecidableEq, Repr

/-- Model of the axis-generic `StackAlignment` (src/src/layout/stack.rs). -/
inductive StackAlignment where
  | center
  | leading
  | trailing
  | ratio (r : Fl)
deriving DecidableEq, Repr

/-- `StackAlignment::ratio` (src/src/layout/stack.rs lines 45-54). -/
def StackAlignment.toRatio : StackAlignment → Fl
  | .center => .fin (1/2)
  | .leading => .fin 0
  | .trailing => .fin 1
  | .ratio r => r

/-- Model of `Stack` (src/src/layout/stack.rs).  Each borrowed subview is
replaced by its measured `preferred_size`, which is what the layout passes
read from it. -/
structure Stack where
  axis : Axis
  alignment_alpha : StackAlignment
  alignment_beta : StackAlignment
  padding_type : StackPaddingType
  fixed_padding : Option Fl
  shrink_together : Bool
  subviews : List RectSize
  alpha_sum : Fl
  beta_max : Fl
  beta_max_finite : Fl
deriving DecidableEq, Repr

/-- `Stack::new` (src/src/layout/stack.rs lines 133-146). -/
def Stack.new (axis : Axis) : Stack :=
  { axis := axis
    alignment_alpha := .center
    alignment_beta := .center
    padding_type := .interpadded
    fixed_padding := none
    shrink_together := false
    subviews := []
    alpha_sum := .fin 0
    beta_max := .fin 0
    beta_max_finite := .fin 0 }

/-- `Stack::subview` (src/src/layout/stack.rs lines 148-161): record one
subview's measured size, accumulating the alpha sum and the beta maxima. -/
def Stack.subview (s : Stack) (subview_size : RectSize) : Stack :=
  let subview_beta := subview_size.length_beta s.axis
  { s with
    alpha_sum := s.alpha_sum + subview_size.length_alpha s.axis
    beta_max := Fl.max s.beta_max subview_beta
    beta_max_finite :=
      if subview_beta.isFinite then Fl.max s.beta_max_finite subview_beta
      else s.beta_max_finite
    subviews := s.subviews ++ [subview_size] }

/-- `Stack::n_paddings` (src/src/layout/stack.rs lines 163-168); `Nat`
subtraction is Rust's `usize::saturating_sub`. -/
def Stack.n_paddings (n_subviews : ℕ) (padding_type : StackPaddingType) : ℕ :=
  match padding_type with
  | .interpadded => n_subviews - 1
  | .omnipadded => n_subviews + 1

/-- `Stack::preferred_size` (src/src/layout/stack.rs lines 172-179). -/
def Stack.preferred_size (s : Stack) : RectSize :=
  let n_paddings : Fl := .fin (Q.ofNat (Stack.n_paddings s.subviews.length s.padding_type))
  RectSize.new_on_axis s.axis
    (s.alpha_sum + n_paddings * (s.fixed_padding.getD (.fin 0)))
    s.beta_max

/-- The subview-placement loop of `Stack::apply_bounds`
(src/src/layout/stack.rs lines 205-228), threading the running alpha offset
and the enumeration index; returns the bounds passed to each subview's
`apply_bounds` in order. -/
def Stack.applyLoop (axis : Axis) (omnipadded : Bool) (alignment_beta : StackAlignment)
    (padding_body shrink_a shrink_b : Fl) (bounds : Bounds) :
    ℕ → Fl → List RectSize → List Bounds
  | _, _, [] => []
  | i, offset_a, preferred :: rest =>
    let offset_a := if i ≠ 0 || omnipadded then offset_a + padding_body else offset_a
    let requested_size := preferred.scaled_on_axis axis shrink_a shrink_b
    let remaining_size := RectSize.new_on_axis axis
      (bounds.alpha axis - offset_a) (bounds.beta axis)
    let subview_size := requested_size.min remaining_size
    let leftover_beta := bounds.beta axis - subview_size.length_beta axis
    let offset_b := alignment_beta.toRatio * leftover_beta
    let subview_bounds := Bounds.new
      (bounds.origin.addV (Vector2.new_on_axis axis offset_a offset_b)) subview_size
    subview_bounds ::
      Stack.applyLoop axis omnipadded alignment_beta padding_body shrink_a shrink_b bounds
        (i + 1) (offset_a + subview_size.length_alpha axis) rest

/-- `Stack::apply_bounds` (src/src/layout/stack.rs lines 181-229): returns the
bounds assigned to each subview in order. -/
def Stack.apply_bounds (s : Stack) (bounds : Bounds) : List Bounds :=
  let n_paddings : Fl := .fin (Q.ofNat (Stack.n_paddings s.subviews.length s.padding_type))
  let min_alpha := s.alpha_sum + n_paddings * (s.fixed_padding.getD (.fin 0))
  let leftover_alpha := Fl.max (bounds.alpha s.axis - min_alpha) (.fin 0)
  let shrink_a := Fl.min ((bounds.alpha s.axis).div min_alpha) (.fin 1)
  let shrink_b :=
    match s.shrink_together with
    | true => Fl.min ((bounds.beta s.axis).div s.beta_max_finite) (.fin 1)
    | false => .fin 1
  let padding_leading :=
    match s.fixed_padding, s.alignment_alpha with
    | none, _ => Fl.fin 0
    | some _, alignment => alignment.toRatio * leftover_alpha
  let padding_body :=
    match s.fixed_padding with
    | some fixed_padding => fixed_padding * shrink_a
    | none => leftover_alpha.div n_paddings
  Stack.applyLoop s.axis (s.padding_type = .omnipadded) s.alignment_beta
    padding_body shrink_a shrink_b bounds 0 padding_leading s.subviews

/-- A `Stack` as produced by `StackBuilder` (src/src/layout/stack.rs lines
244-301): `Stack::new` with the builder's configuration applied, then each
subview's measured size recorded in order via `Stack::subview`. -/
def mkStack (axis : Axis) (alignment_alpha alignment_beta : StackAlignment)
    (padding_type : StackPaddingType) (fixed_padding : Option Fl)
    (shrink_together : Bool) (sizes : List RectSize) : Stack :=
  sizes.foldl Stack.subview
    { Stack.new axis with
      alignment_alpha := alignment_alpha
      alignment_beta := alignment_beta
      padding_type := padding_type
      fixed_padding := fixed_padding
      shrink_together := shrink_together }

/-! ## Mouse event router (src/src/mouse_event.rs) -/

/-- Model of `winit::event::MouseButton` (the five supported buttons plus
`Other(n)`). -/
inductive MouseButton where
  | left
  | right
  | middle
  | back
  | forward
  | other (n : ℕ)
deriving DecidableEq, Repr

/-- Model of `MouseEventKind` (src/src/mouse_event.rs lines 17-32). -/
inductive MouseEventKind where
  | hoveringStart
  | hoveringFinish
  | buttonDown (button : MouseButton) (started_inside : Bool)
  | buttonUp (button : MouseButton) (inside : Bool)
deriving DecidableEq, Repr

/-- Model of `MouseEvent` (src/src/mouse_event.rs lines 34-38). -/
structure MouseEvent where
  kind : MouseEventKind
  cursor_position : Point2
deriving DecidableEq, Repr

/-- Model of `Listener` (src/src/mouse_event.rs lines 281-290).  The
type-erased dispatch object is dropped; a listener is identified by its slot
index and dispatches are recorded per slot. -/
structure Listener where
  bounds : Bounds
  is_hovered : Bool
  button_states : List Bool
deriving DecidableEq, Repr

/-- Model of the normalized `winit::event::WindowEvent` cases the router
handles (src/src/mouse_event.rs `window_event`).  `cursorMoved` carries the
physical position; `mouseInput` carries `state.is_pressed()`. -/
inductive WindowEvent where
  | scaleFactorChanged (scale_factor : Q)
  | cursorMoved (px py : Q)
  | cursorLeft
  | mouseInput (pressed : Bool) (button : MouseButton)
  | redrawRequested
  | otherEvent
deriving DecidableEq, Repr

/-- Model of `MouseEventRouter` (src/src/mouse_event.rs lines 53-67).  The
mutexes and atomics guard single-threaded state (spec section 5), so the
state is modelled as plain fields. -/
structure MouseEventRouter where
  cursor_position : Option Point2
  scale_factor : Q
  bounds : Bounds
  listeners : List (Option Listener)
  bounds_changed : Bool
  button_states : List Bool
deriving DecidableEq, Repr

/-- Model of `ListenerHandle` (src/src/mouse_event.rs lines 293-296): the weak
router reference is supplied at each call site as an `Option MouseEventRouter`
(`none` when the router has been torn down). -/
structure ListenerHandle where
  index : ℕ
deriving DecidableEq, Repr

/-- `MouseEventRouter::new` (src/src/mouse_event.rs lines 70-79). -/
def MouseEventRouter.new (bounds : Bounds) : MouseEventRouter :=
  { cursor_position := none
    scale_factor := 1
    bounds := bounds
    listeners := []
    bounds_changed := false
    button_states := List.replicate 5 false }

/-- `MouseEventRouter::register_listener` (src/src/mouse_event.rs lines
81-98): appends a fresh listener and returns the updated router and the
index-bearing handle. -/
def MouseEventRouter.register_listener (r : MouseEventRouter) (bounds : Bounds) :
    MouseEventRouter × ListenerHandle :=
  ({ r with listeners := r.listeners ++
      [some { bounds := bounds, is_hovered := false,
              button_states := List.replicate 5 false }] },
   { index := r.listeners.length })

/-- `MouseEventRouter::unregister_listener` (src/src/mouse_event.rs lines
100-103): clears the slot, leaving a `none` hole. -/
def MouseEventRouter.unregister_listener (r : MouseEventRouter) (index : ℕ) :
    MouseEventRouter :=
  { r with listeners := r.listeners.set index none }

/-- `MouseEventRouter::update_bounds` (src/src/mouse_event.rs lines 105-109):
writes the listener's bounds in place and raises the `bounds_changed` flag.
The source `unwrap`s the slot; on an empty slot (which a live handle never
references) the Rust code would panic, modelled here as leaving the table
unchanged. -/
def MouseEventRouter.update_bounds (r : MouseEventRouter) (index : ℕ) (bounds : Bounds) :
    MouseEventRouter :=
  { r with
    listeners :=
      match r.listeners[index]? with
      | some (some l) => r.listeners.set index (some { l with bounds := bounds })
      | _ => r.listeners
    bounds_changed := true }

/-- The index-to-button mapping of the button-edge loop in
`MouseEventRouter::scan_events` (src/src/mouse_event.rs lines 215-222).
Note that indices 3 and 4 map to `Forward` and `Back`, the reverse of the
button-to-index mapping used by `window_event`.  Indices above 4 are
unreachable (the zipped arrays both have length 5); the `unreachable!` arm is
modelled as `left`. -/
def scanIndexButton : ℕ → MouseButton
  | 0 => .left
  | 1 => .right
  | 2 => .middle
  | 3 => .forward
  | 4 => .back
  | _ => .left

/-- The button-to-index mapping of the `MouseInput` arm of
`MouseEventRouter::window_event` (src/src/mouse_event.rs lines 153-160);
`none` models the early `return false` for `Other(_)`. -/
def inputButtonIndex : MouseButton → Option ℕ
  | .left => some 0
  | .right => some 1
  | .middle => some 2
  | .back => some 3
  | .forward => some 4
  | .other _ => none

/-- The button up/down scan of one listener
(src/src/mouse_event.rs lines 212-246): walks `zip(raw, recorded)` with its
enumeration index, returning the listener's updated recorded states and the
dispatched event kinds in order. -/
def scanButtons (inside is_hovered_before : Bool) :
    ℕ → List Bool → List Bool → List Bool × List MouseEventKind
  | i, state :: raw_rest, listener_state :: rec_rest =>
    let button := scanIndexButton i
    if !state && listener_state then
      let rest := scanButtons inside is_hovered_before (i + 1) raw_rest rec_rest
      (state :: rest.1, .buttonUp button inside :: rest.2)
    else if state && !listener_state && inside then
      let rest := scanButtons inside is_hovered_before (i + 1) raw_rest rec_rest
      (state :: rest.1, .buttonDown button is_hovered_before :: rest.2)
    else
      let rest := scanButtons inside is_hovered_before (i + 1) raw_rest rec_rest
      (listener_state :: rest.1, rest.2)
  | _, _, listener_states => (listener_states, [])

/-- The per-listener body of `MouseEventRouter::scan_events`
(src/src/mouse_event.rs lines 188-247): hover transition first, then the five
button edges; returns the updated listener and the events dispatched to it, in
dispatch order. -/
def scanListener (cursor_position : Point2) (button_states : List Bool) (l : Listener) :
    Listener × List MouseEvent :=
  let inside := l.bounds.contains cursor_position
  let is_hovered_before := l.is_hovered
  let hover_event : List MouseEventKind :=
    if inside && !l.is_hovered then [.hoveringStart]
    else if !inside && l.is_hovered then [.hoveringFinish]
    else []
  let is_hovered :=
    if inside && !l.is_hovered then true
    else if !inside && l.is_hovered then false
    else l.is_hovered
  let buttons := scanButtons inside is_hovered_before 0 button_states l.button_states
  ({ bounds := l.bounds, is_hovered := is_hovered, button_states := buttons.1 },
   (hover_event ++ buttons.2).map fun kind =>
     { kind := kind, cursor_position := cursor_position })

/-- One slot of the `scan_events` pass: live listeners are updated, holes are
kept (`listeners_iter_mut` skips `None` slots). -/
def scanSlot (cursor_position : Point2) (button_states : List Bool) :
    Option Listener → Option Listener :=
  Option.map fun l => (scanListener cursor_position button_states l).1

/-- The events one slot of the `scan_events` pass dispatches. -/
def scanSlotLog (cursor_position : Point2) (button_states : List Bool) :
    Option Listener → List MouseEvent
  | none => []
  | some l => (scanListener cursor_position button_states l).2

/-- An empty per-slot dispatch log for a router (no listener receives
anything). -/
def emptyLog (r : MouseEventRouter) : List (List MouseEvent) :=
  r.listeners.map fun _ => []

/-- `MouseEventRouter::scan_events` (src/src/mouse_event.rs lines 180-249):
if the cursor is unknown nothing happens; otherwise every live listener is
scanned in slot order.  Returns the updated router, the per-slot dispatch
log, and the should-redraw flag (set exactly when some event was
dispatched). -/
def MouseEventRouter.scan_events (r : MouseEventRouter) :
    MouseEventRouter × List (List MouseEvent) × Bool :=
  match r.cursor_position with
  | none => (r, emptyLog r, false)
  | some cursor_position =>
    let logs := r.listeners.map (scanSlotLog cursor_position r.button_states)
    ({ r with listeners := r.listeners.map (scanSlot cursor_position r.button_states) },
     logs,
     logs.any fun evs => !evs.isEmpty)

/-- `MouseEventRouter::window_event` (src/src/mouse_event.rs lines 125-177):
returns the updated router, the per-slot dispatch log and the
should-request-redraw result.  Physical cursor positions are converted to
logical ones with winit's `to_logical` (physical / scale factor). -/
def MouseEventRouter.window_event (r : MouseEventRouter) (event : WindowEvent) :
    MouseEventRouter × List (List MouseEvent) × Bool :=
  match event with
  | .scaleFactorChanged scale_factor =>
    MouseEventRouter.scan_events { r with scale_factor := scale_factor }
  | .cursorMoved px py =>
    let cursor_position : Point2 := ⟨.fin (px / r.scale_factor), .fin (py / r.scale_factor)⟩
    MouseEventRouter.scan_events { r with cursor_position := some cursor_position }
  | .cursorLeft =>
    MouseEventRouter.scan_events { r with cursor_position := none }
  | .mouseInput pressed button =>
    match inputButtonIndex button with
    | none => (r, emptyLog r, false)
    | some index =>
      MouseEventRouter.scan_events
        { r with button_states := r.button_states.set index pressed }
  | .redrawRequested =>
    if r.bounds_changed then
      MouseEventRouter.scan_events { r with bounds_changed := false }
    else (r, emptyLog r, false)
  | .otherEvent => (r, emptyLog r, false)

/-- The router state after one window event. -/
def stateAfter (r : MouseEventRouter) (event : WindowEvent) : MouseEventRouter :=
  (r.window_event event).1

/-- The per-slot dispatch log of one window event. -/
def eventLog (r : MouseEventRouter) (event : WindowEvent) : List (List MouseEvent) :=
  (r.window_event event).2.1

/-- The router state after a sequence of window events. -/
def runState (r : MouseEventRouter) (events : List WindowEvent) : MouseEventRouter :=
  events.foldl stateAfter r

/-- The per-slot dispatch log accumulated over a sequence of window events. -/
def runLogs (r : MouseEventRouter) : List WindowEvent → List (List MouseEvent)
  | [] => emptyLog r
  | e :: es => List.zipWith (· ++ ·) (eventLog r e) (runLogs (stateAfter r e) es)

/-- `Drop for ListenerHandle` (src/src/mouse_event.rs lines 315-321): if the
weak router reference still upgrades, unregister this handle's listener;
otherwise do nothing. -/
def ListenerHandle.drop (router : Option MouseEventRouter) (h : ListenerHandle) :
    Option MouseEventRouter :=
  router.map fun r => r.unregister_listener h.index

/-- `ListenerHandle::update_bounds` (src/src/mouse_event.rs lines 323-329). -/
def ListenerHandle.update_bounds (router : Option MouseEventRouter) (h : ListenerHandle)
    (bounds : Bounds) : Option MouseEventRouter :=
  router.map fun r => r.update_bounds h.index bounds

/-! ## Button widget (src/src/view/button.rs) -/

/-- Model of `ButtonState` (src/src/view/button.rs lines 19-28). -/
inductive ButtonState where
  | idle
  | hovered
  | pressed
  | pressedOutside
deriving DecidableEq, Repr

/-- The state-transition match of `MouseEventListener::mouse_event` for
`Arc<ButtonDispatch>` (src/src/view/button.rs lines 249-267), with Rust's
first-match-wins arm order preserved. -/
def ButtonDispatch.next_state (old_state : ButtonState) (kind : MouseEventKind) :
    ButtonState :=
  match kind, old_state with
  | .hoveringStart, .idle => .hovered
  | .hoveringStart, .pressedOutside => .pressed
  | .hoveringFinish, .hovered => .idle
  | .hoveringFinish, .pressed => .pressedOutside
  | .buttonDown .left true, _ => .pressed
  | .buttonUp .left true, _ => .hovered
  | .buttonUp .left false, _ => .idle
  | _, _ => old_state

/-- Model of `ButtonEvent` (src/src/view/button.rs lines 282-288). -/
structure ButtonEvent where
  kind : MouseEventKind
  position : Point2
  previous_state : ButtonState
  current_state : ButtonState
deriving DecidableEq, Repr

/-- `ButtonEvent::is_button_trigger` (src/src/view/button.rs lines 290-306). -/
def ButtonEvent.is_button_trigger (e : ButtonEvent) : Bool :=
  decide (e.kind = .buttonUp .left true) && decide (e.previous_state = .pressed)

/-- One `mouse_event` dispatch on a `ButtonDispatch` (src/src/view/button.rs
lines 244-280): stores the new state and hands the callback a `ButtonEvent`
carrying the previous and current state. -/
def ButtonDispatch.step (old_state : ButtonState) (event : MouseEvent) :
    ButtonState × ButtonEvent :=
  let new_state := ButtonDispatch.next_state old_state event.kind
  (new_state,
   { kind := event.kind, position := event.cursor_position,
     previous_state := old_state, current_state := new_state })

/-- The sequence of `ButtonEvent`s a `ButtonDispatch` hands its callback when
fed a list of mouse events, starting from a given widget state. -/
def ButtonDispatch.run (state : ButtonState) : List MouseEvent → List ButtonEvent
  | [] => []
  | e :: es =>
    let step := ButtonDispatch.step state e
    step.2 :: ButtonDispatch.run step.1 es

/-- The widget states visited when a `ButtonDispatch` is fed a list of mouse
events (initial state included). -/
def ButtonDispatch.states (state : ButtonState) : List MouseEvent → List ButtonState
  | [] => [state]
  | e :: es => state :: ButtonDispatch.states (ButtonDispatch.step state e).1 es

/-! ## Concrete instances used by the claims -/

/-- A router with a single listener covering `[0, 0, 100, 100]`, as in the
spec's router tests. -/
def routerOne : MouseEventRouter :=
  ((MouseEventRouter.new (Bounds.from_scalars (.fin 0) (.fin 0) (.fin 800) (.fin 600))).register_listener
    (Bounds.from_scalars (.fin 0) (.fin 0) (.fin 100) (.fin 100))).1

/-- The four cursor moves of the hover test (C5). -/
def hoverEvents : List WindowEvent :=
  [.cursorMoved 50 50, .cursorMoved 150 50, .cursorMoved 50 50, .cursorMoved 60 60]

/-- A mouse event with the given kind at a fixed position, for the button
state-machine paths (C6). -/
def mouseEventAt (kind : MouseEventKind) : MouseEvent :=
  { kind := kind, cursor_position := ⟨.fin 10, .fin 10⟩ }

/-- Press inside, drag out, release outside (C6's first path). -/
def dragOutPath : List MouseEvent :=
  [mouseEventAt .hoveringStart,
   mouseEventAt (.buttonDown .left true),
   mouseEventAt .hoveringFinish,
   mouseEventAt (.buttonUp .left false)]

/-- Press inside, release inside (C6's second path). -/
def clickPath : List MouseEvent :=
  [mouseEventAt .hoveringStart,
   mouseEventAt (.buttonDown .left true),
   mouseEventAt (.buttonUp .left true)]

/-- The three-subview horizontal stack of the spec's stack test (C7), with the
alpha alignment chosen as `leading`. -/
def stackLeading : Stack :=
  mkStack .horizontal .leading .center .interpadded (some (.fin 10)) false
    [⟨.fin 50, .fin 20⟩, ⟨.fin 80, .fin 20⟩, ⟨.fin 30, .fin 20⟩]

/-- The same stack with the builder's default (`center`) alpha alignment. -/
def stackCentered : Stack :=
  mkStack .horizontal .center .center .interpadded (some (.fin 10)) false
    [⟨.fin 50, .fin 20⟩, ⟨.fin 80, .fin 20⟩, ⟨.fin 30, .fin 20⟩]

/-- A container with a `Spread` left padding, `Fixed(0)` everywhere else and a
finite 10 by 10 subview (C3's counterexample input). -/
def containerSpreadLeft : Container :=
  { Container.new ⟨.fin 10, .fin 10⟩ with padding_left := .spread }

/-- Spec-side helper (C3): a non-`Spread` padding policy evaluated on its own,
"what the fixed/ratio paddings alone would give". -/
def paddingAlone : ContainerPadding → Fl → Fl
  | .fixed f, _ => f
  | .ratioOfViewSize r, v => r * v
  | .spread, _ => .fin 0

/-- A padding policy that is not `Spread` and carries a finite parameter. -/
def ContainerPadding.isFiniteNonSpread : ContainerPadding → Bool
  | .fixed (.fin _) => true
  | .ratioOfViewSize (.fin _) => true
  | _ => false

/-- Spec-side helper (C1, amended table): the button transition table with the
`ButtonDown`/`ButtonUp` rows applying from every current state. -/
def buttonTableAmended (s : ButtonState) (k : MouseEventKind) : ButtonState :=
  match k with
  | .hoveringStart =>
    match s with
    | .idle => .hovered
    | .pressedOutside => .pressed
    | _ => s
  | .hoveringFinish =>
    match s with
    | .hovered => .idle
    | .pressed => .pressedOutside
    | _ => s
  | .buttonDown b si => if b = .left ∧ si = true then .pressed else s
  | .buttonUp b ins => if b = .left then (if ins then .hovered else .idle) else s

/-- Hover notification kinds (C5). -/
def MouseEventKind.isHover : MouseEventKind → Bool
  | .hoveringStart => true
  | .hoveringFinish => true
  | _ => false

/-- A router with two registered listeners (C9 witness input). -/
def routerTwo : MouseEventRouter :=
  ((routerOne.register_listener
      (Bounds.from_scalars (.fin 200) (.fin 0) (.fin 100) (.fin 100)))).1

/-- A listener with the left button recorded as pressed (C4 witness input). -/
def listenerPressed : Listener :=
  { bounds := Bounds.from_scalars (.fin 0) (.fin 0) (.fin 100) (.fin 100)
    is_hovered := true
    button_states := [true, false, false, false, false] }

/-- A router holding `listenerPressed` with all raw buttons released and the
cursor known at (50, 50) (C4 witness input). -/
def routerPressed : MouseEventRouter :=
  { cursor_position := some ⟨.fin 50, .fin 50⟩
    scale_factor := 1
    bounds := Bounds.from_scalars (.fin 0) (.fin 0) (.fin 800) (.fin 600)
    listeners := [some listenerPressed]
    bounds_changed := false
    button_states := [false, false, false, false, false] }

/-- A container with finite paddings on the horizontal axis and a `Spread` top
padding (C3 witness input). -/
def containerMixed : Container :=
  { Container.new ⟨.fin 10, .fin 20⟩ with
    padding_left := .fixed (.fin 2)
    padding_right := .ratioOfViewSize (.fin (1/2))
    padding_top := .spread
    padding_bottom := .fixed (.fin 1) }

/-! ## Helper lemmas -/

theorem zipWith_set_both {α β γ : Type} (f : α → β → γ) :
    ∀ (l1 : List α) (l2 : List β) (i : ℕ) (a : α) (b : β),
      List.zipWith f (l1.set i a) (l2.set i b) = (List.zipWith f l1 l2).set i (f a b) := by
  intro l1
  induction l1 with
  | nil => intro l2 i a b; simp
  | cons x xs ih =>
    intro l2 i a b
    cases l2 with
    | nil => simp
    | cons y ys =>
      cases i with
      | zero => simp
      | succ n => simpa using ih ys n a b

theorem Fl.max_fin (a b : Q) : Fl.max (.fin a) (.fin b) = .fin (Q.max a b) := by
  by_cases h : a ≤ b
  · simp [Fl.max, Fl.le, Q.max, h]
  · simp [Fl.max, Fl.le, Q.max, h]

theorem emptyLog_unregister (r : MouseEventRouter) (i : ℕ) :
    emptyLog (r.unregister_listener i) = (emptyLog r).set i [] := by
  simp [emptyLog, MouseEventRouter.unregister_listener, List.map_set]

theorem scan_unregister_state (r : MouseEventRouter) (i : ℕ) :
    ((r.unregister_listener i).scan_events).1 = ((r.scan_events).1).unregister_listener i := by
  cases hc : r.cursor_position with
  | none =>
    simp [MouseEventRouter.scan_events, MouseEventRouter.unregister_listener, hc]
  | some c =>
    simp [MouseEventRouter.scan_events, MouseEventRouter.unregister_listener, hc, List.map_set,
      scanSlot]

theorem scan_unregister_log (r : MouseEventRouter) (i : ℕ) :
    ((r.unregister_listener i).scan_events).2.1 = (((r.scan_events).2.1).set i []) := by
  cases hc : r.cursor_position with
  | none =>
    simp [MouseEventRouter.scan_events, MouseEventRouter.unregister_listener, hc,
      emptyLog, List.map_set]
  | some c =>
    simp [MouseEventRouter.scan_events, MouseEventRouter.unregister_listener, hc, List.map_set,
      scanSlotLog]

theorem stateAfter_unregister (r : MouseEventRouter) (i : ℕ) (e : WindowEvent) :
    stateAfter (r.unregister_listener i) e = (stateAfter r e).unregister_listener i := by
  cases e with
  | scaleFactorChanged f =>
    exact scan_unregister_state { r with scale_factor := f } i
  | cursorMoved px py =>
    exact scan_unregister_state
      { r with cursor_position := some (Point2.mk (.fin (px / r.scale_factor)) (.fin (py / r.scale_factor))) } i
  | cursorLeft =>
    exact scan_unregister_state { r with cursor_position := none } i
  | mouseInput pressed button =>
    cases button <;>
      first
        | exact scan_unregister_state { r with button_states := r.button_states.set 0 pressed } i
        | exact scan_unregister_state { r with button_states := r.button_states.set 1 pressed } i
        | exact scan_unregister_state { r with button_states := r.button_states.set 2 pressed } i
        | exact scan_unregister_state { r with button_states := r.button_states.set 3 pressed } i
        | exact scan_unregister_state { r with button_states := r.button_states.set 4 pressed } i
        | rfl
  | redrawRequested =>
    show stateAfter (r.unregister_listener i) .redrawRequested = _
    by_cases hb : r.bounds_changed
    · have h1 : stateAfter (r.unregister_listener i) .redrawRequested
          = (({ r with bounds_changed := false }).unregister_listener i).scan_events.1 := by
        simp [stateAfter, MouseEventRouter.window_event, MouseEventRouter.unregister_listener, hb]
      have h2 : stateAfter r .redrawRequested = ({ r with bounds_changed := false }).scan_events.1 := by
        simp [stateAfter, MouseEventRouter.window_event, hb]
      rw [h1, h2, scan_unregister_state]
    · have h1 : stateAfter (r.unregister_listener i) .redrawRequested = r.unregister_listener i := by
        simp [stateAfter, MouseEventRouter.window_event, MouseEventRouter.unregister_listener, hb]
      have h2 : stateAfter r .redrawRequested = r := by
        simp [stateAfter, MouseEventRouter.window_event, hb]
      rw [h1, h2]
  | otherEvent => rfl

theorem eventLog_unregister (r : MouseEventRouter) (i : ℕ) (e : WindowEvent) :
    eventLog (r.unregister_listener i) e = (eventLog r e).set i [] := by
  cases e with
  | scaleFactorChanged f =>
    exact scan_unregister_log { r with scale_factor := f } i
  | cursorMoved px py =>
    exact scan_unregister_log
      { r with cursor_position := some (Point2.mk (.fin (px / r.scale_factor)) (.fin (py / r.scale_factor))) } i
  | cursorLeft =>
    exact scan_unregister_log { r with cursor_position := none } i
  | mouseInput pressed button =>
    cases button <;>
      first
        | exact scan_unregister_log { r with button_states := r.button_states.set 0 pressed } i
        | exact scan_unregister_log { r with button_states := r.button_states.set 1 pressed } i
        | exact scan_unregister_log { r with button_states := r.button_states.set 2 pressed } i
        | exact scan_unregister_log { r with button_states := r.button_states.set 3 pressed } i
        | exact scan_unregister_log { r with button_states := r.button_states.set 4 pressed } i
        | exact emptyLog_unregister r i
  | redrawRequested =>
    by_cases hb : r.bounds_changed
    · have h1 : eventLog (r.unregister_listener i) .redrawRequested
          = (({ r with bounds_changed := false }).unregister_listener i).scan_events.2.1 := by
        simp [eventLog, MouseEventRouter.window_event, MouseEventRouter.unregister_listener, hb]
      have h2 : eventLog r .redrawRequested = ({ r with bounds_changed := false }).scan_events.2.1 := by
        simp [eventLog, MouseEventRouter.window_event, hb]
      rw [h1, h2, scan_unregister_log]
    · have h1 : eventLog (r.unregister_listener i) .redrawRequested
          = emptyLog (r.unregister_listener i) := by
        simp [eventLog, MouseEventRouter.window_event, MouseEventRouter.unregister_listener, hb]
      have h2 : eventLog r .redrawRequested = emptyLog r := by
        simp [eventLog, MouseEventRouter.window_event, hb]
      rw [h1, h2, emptyLog_unregister]
  | otherEvent => exact emptyLog_unregister r i

theorem runState_unregister (r : MouseEventRouter) (i : ℕ) (es : List WindowEvent) :
    runState (r.unregister_listener i) es = (runState r es).unregister_listener i := by
  induction es generalizing r with
  | nil => rfl
  | cons e es ih =>
    show runState (stateAfter (r.unregister_listener i) e) es = _
    rw [stateAfter_unregister, ih]
    rfl

theorem runLogs_unregister (r : MouseEventRouter) (i : ℕ) (es : List WindowEvent) :
    runLogs (r.unregister_listener i) es = (runLogs r es).set i [] := by
  induction es generalizing r with
  | nil => exact emptyLog_unregister r i
  | cons e es ih =>
    show List.zipWith (· ++ ·) (eventLog (r.unregister_listener i) e)
        (runLogs (stateAfter (r.unregister_listener i) e) es) = _
    rw [eventLog_unregister, stateAfter_unregister, ih]
    exact zipWith_set_both (· ++ ·) (eventLog r e) (runLogs (stateAfter r e) es) i [] []

theorem scan_length_state (r : MouseEventRouter) :
    ((r.scan_events).1).listeners.length = r.listeners.length := by
  cases hc : r.cursor_position with
  | none => simp [MouseEventRouter.scan_events, hc]
  | some c => simp [MouseEventRouter.scan_events, hc]

theorem scan_length_log (r : MouseEventRouter) :
    ((r.scan_events).2.1).length = r.listeners.length := by
  cases hc : r.cursor_position with
  | none => simp [MouseEventRouter.scan_events, hc, emptyLog]
  | some c => simp [MouseEventRouter.scan_events, hc]

theorem stateAfter_length (r : MouseEventRouter) (e : WindowEvent) :
    (stateAfter r e).listeners.length = r.listeners.length := by
  cases e with
  | scaleFactorChanged f => exact scan_length_state _
  | cursorMoved px py => exact scan_length_state _
  | cursorLeft => exact scan_length_state _
  | mouseInput pressed button =>
    cases button <;> first | exact scan_length_state _ | rfl
  | redrawRequested =>
    by_cases hb : r.bounds_changed <;>
      simp [stateAfter, MouseEventRouter.window_event, hb, scan_length_state]
  | otherEvent => rfl

theorem eventLog_length (r : MouseEventRouter) (e : WindowEvent) :
    (eventLog r e).length = r.listeners.length := by
  cases e with
  | scaleFactorChanged f => exact scan_length_log _
  | cursorMoved px py => exact scan_length_log _
  | cursorLeft => exact scan_length_log _
  | mouseInput pressed button =>
    cases button <;>
      first
        | exact scan_length_log _
        | simp [eventLog, MouseEventRouter.window_event, emptyLog, inputButtonIndex]
  | redrawRequested =>
    by_cases hb : r.bounds_changed <;>
      simp [eventLog, MouseEventRouter.window_event, hb, scan_length_log, emptyLog]
  | otherEvent => simp [eventLog, MouseEventRouter.window_event, emptyLog]

theorem runLogs_length (r : MouseEventRouter) (es : List WindowEvent) :
    (runLogs r es).length = r.listeners.length := by
  induction es generalizing r with
  | nil => simp [runLogs, emptyLog]
  | cons e es ih =>
    show (List.zipWith (· ++ ·) (eventLog r e) (runLogs (stateAfter r e) es)).length = _
    rw [List.length_zipWith _ _ _, eventLog_length, ih, stateAfter_length, min_self]

theorem Fl.add_fin (a b : Q) : Fl.fin a + Fl.fin b = Fl.fin (a + b) := rfl

theorem Fl.mul_fin (a b : Q) : Fl.fin a * Fl.fin b = Fl.fin (a * b) := rfl

theorem length_alpha_new_on_axis (axis : Axis) (a b : Fl) :
    (RectSize.new_on_axis axis a b).length_alpha axis = a := by
  cases axis <;> rfl

theorem length_beta_new_on_axis (axis : Axis) (a b : Fl) :
    (RectSize.new_on_axis axis a b).length_beta axis = b := by
  cases axis <;> rfl

theorem stack_subview_fields (s : Stack) (sz : RectSize) :
    (s.subview sz).axis = s.axis
    ∧ (s.subview sz).padding_type = s.padding_type
    ∧ (s.subview sz).fixed_padding = s.fixed_padding
    ∧ (s.subview sz).subviews = s.subviews ++ [sz] := by
  refine ⟨rfl, rfl, rfl, rfl⟩

theorem mkStack_foldl (axis : Axis) (szs : List (Q × Q)) :
    ∀ (s0 : Stack) (a0 b0 : Q), s0.axis = axis → s0.alpha_sum = .fin a0 → s0.beta_max = .fin b0 →
      ((szs.map fun p => RectSize.new_on_axis axis (.fin p.1) (.fin p.2)).foldl
          Stack.subview s0).axis = axis
      ∧ ((szs.map fun p => RectSize.new_on_axis axis (.fin p.1) (.fin p.2)).foldl
          Stack.subview s0).padding_type = s0.padding_type
      ∧ ((szs.map fun p => RectSize.new_on_axis axis (.fin p.1) (.fin p.2)).foldl
          Stack.subview s0).fixed_padding = s0.fixed_padding
      ∧ ((szs.map fun p => RectSize.new_on_axis axis (.fin p.1) (.fin p.2)).foldl
          Stack.subview s0).subviews.length = s0.subviews.length + szs.length
      ∧ ((szs.map fun p => RectSize.new_on_axis axis (.fin p.1) (.fin p.2)).foldl
          Stack.subview s0).alpha_sum = .fin ((szs.map Prod.fst).foldl Q.add a0)
      ∧ ((szs.map fun p => RectSize.new_on_axis axis (.fin p.1) (.fin p.2)).foldl
          Stack.subview s0).beta_max = .fin ((szs.map Prod.snd).foldl Q.max b0) := by
  induction szs with
  | nil =>
    intro s0 a0 b0 hax ha hb
    simp [hax, ha, hb]
  | cons p ps ih =>
    intro s0 a0 b0 hax ha hb
    have hax1 : (s0.subview (RectSize.new_on_axis axis (.fin p.1) (.fin p.2))).axis = axis := hax
    have ha1 : (s0.subview (RectSize.new_on_axis axis (.fin p.1) (.fin p.2))).alpha_sum
        = .fin (a0 + p.1) := by
      simp [Stack.subview, hax, ha, length_alpha_new_on_axis, Fl.add_fin]
    have hb1 : (s0.subview (RectSize.new_on_axis axis (.fin p.1) (.fin p.2))).beta_max
        = .fin (Q.max b0 p.2) := by
      simp [Stack.subview, hax, hb, length_beta_new_on_axis, Fl.max_fin]
    have key := ih (s0.subview (RectSize.new_on_axis axis (.fin p.1) (.fin p.2)))
      (a0 + p.1) (Q.max b0 p.2) hax1 ha1 hb1
    obtain ⟨k1, k2, k3, k4, k5, k6⟩ := key
    simp only [List.map_cons, List.foldl_cons]
    refine ⟨k1, ?_, ?_, ?_, ?_, ?_⟩
    · rw [k2]; exact (stack_subview_fields s0 _).2.1
    · rw [k3]; exact (stack_subview_fields s0 _).2.2.1
    · rw [k4, (stack_subview_fields s0 _).2.2.2]
      simp only [List.length_append, List.length_cons, List.length_nil]
      omega
    · rw [k5]; rfl
    · rw [k6]

theorem scanButtons_no_hover (inside is_hovered_before : Bool) :
    ∀ (raw : List Bool) (i : ℕ) (recorded : List Bool) (k : MouseEventKind),
      k ∈ (scanButtons inside is_hovered_before i raw recorded).2 → k.isHover = false := by
  intro raw
  induction raw with
  | nil =>
    intro i recorded k hk
    simp [scanButtons] at hk
  | cons s raws ih =>
    intro i recorded k hk
    cases recorded with
    | nil => simp [scanButtons] at hk
    | cons ls lss =>
      simp only [scanButtons] at hk
      split_ifs at hk <;> simp only [List.mem_cons] at hk
      · rcases hk with rfl | hk
        · rfl
        · exact ih (i + 1) lss k hk
      · rcases hk with rfl | hk
        · rfl
        · exact ih (i + 1) lss k hk
      · exact ih (i + 1) lss k hk

theorem filter_hover_map_wrap (c : Point2) (ks : List MouseEventKind) :
    ((ks.map fun k => MouseEvent.mk k c).filter fun e => e.kind.isHover)
      = (ks.filter MouseEventKind.isHover).map fun k => MouseEvent.mk k c := by
  induction ks with
  | nil => rfl
  | cons k ks ih =>
    by_cases h : k.isHover
    · simp [List.filter_cons, h, ih]
    · simp [List.filter_cons, h, ih]

theorem mem_map_wrap (k0 : MouseEventKind) (c : Point2) (ks : List MouseEventKind) :
    (MouseEvent.mk k0 c ∈ ks.map fun k => MouseEvent.mk k c) ↔ k0 ∈ ks := by
  simp [List.mem_map]

theorem kinds_map_wrap (c : Point2) (ks : List MouseEventKind) :
    (ks.map fun k => MouseEvent.mk k c).map MouseEvent.kind = ks := by
  induction ks with
  | nil => rfl
  | cons k ks ih => simp [ih]

/-! ## Claim theorems -/

/-- C1 (counterexample): the claim says every state/event combination not in
the spec's table leaves the state unchanged, e.g. that Idle with
ButtonUp(left, inside=true) stays Idle.  In the code this combination yields
Hovered: the ButtonUp arm is not guarded by the current state. -/
theorem c1_counterexample :
    ButtonDispatch.next_state .idle (.buttonUp .left true) = .hovered
    ∧ ButtonDispatch.next_state .idle (.buttonUp .left true) ≠ .idle := by
  decide

/-- C1 (amended): the transition function matches the spec's table with the
ButtonDown/ButtonUp rows unguarded by the current state: ButtonDown(left,
startedInside=true) yields Pressed from every state, ButtonUp(left,
inside=true) yields Hovered from every state, ButtonUp(left, inside=false)
yields Idle from every state; Hovered with ButtonDown(left,
startedInside=false), and every other unlisted combination, leaves the state
unchanged. -/
theorem c1_amended : ∀ (s : ButtonState) (k : MouseEventKind),
    ButtonDispatch.next_state s k = buttonTableAmended s k := by
  intro s k
  cases k with
  | hoveringStart => cases s <;> rfl
  | hoveringFinish => cases s <;> rfl
  | buttonDown b si =>
    cases b <;> cases si <;> cases s <;>
      simp [ButtonDispatch.next_state, buttonTableAmended]
  | buttonUp b ins =>
    cases b <;> cases ins <;> cases s <;>
      simp [ButtonDispatch.next_state, buttonTableAmended]

/-- C2 (code evaluated at the failing input): with the cursor hovering the
listener, a MouseInput press of the Back button (raw index 3 in
`window_event`) dispatches a ButtonDown carrying Forward, because the scan
loop maps index 3 back to Forward; the dispatched button differs from the
button that produced the edge. -/
theorem c2_failing_input :
    runLogs routerOne [.cursorMoved 50 50, .mouseInput true .back]
      = [[{ kind := .hoveringStart, cursor_position := ⟨.fin 50, .fin 50⟩ },
          { kind := .buttonDown .forward true, cursor_position := ⟨.fin 50, .fin 50⟩ }]]
    ∧ inputButtonIndex .back = some 3
    ∧ scanIndexButton 3 = .forward
    ∧ MouseButton.forward ≠ MouseButton.back := by
  decide

/-- C6: `is_button_trigger` is true exactly on a ButtonUp(left, inside=true)
event whose previous state was Pressed; along the press-drag-out-release path
(Idle, Hovered, Pressed, PressedOutside, Idle) it is false at every event, and
along the press-release-inside path (Idle, Hovered, Pressed, Hovered) it is
true exactly at the final ButtonUp event. -/
theorem c6_is_button_trigger :
    (∀ e : ButtonEvent, e.is_button_trigger = true
        ↔ (e.kind = .buttonUp .left true ∧ e.previous_state = .pressed))
    ∧ ButtonDispatch.states .idle dragOutPath
        = [.idle, .hovered, .pressed, .pressedOutside, .idle]
    ∧ (ButtonDispatch.run .idle dragOutPath).map ButtonEvent.is_button_trigger
        = [false, false, false, false]
    ∧ ButtonDispatch.states .idle clickPath = [.idle, .hovered, .pressed, .hovered]
    ∧ (ButtonDispatch.run .idle clickPath).map ButtonEvent.is_button_trigger
        = [false, false, true] := by
  refine ⟨?_, by decide, by decide, by decide, by decide⟩
  intro e
  simp [ButtonEvent.is_button_trigger]

/-- C10: a MouseInput event with an `Other(_)` button returns false from
`window_event`, dispatches nothing, and leaves the entire router state,
including every listener, exactly as it was. -/
theorem c10_mouse_input_other (r : MouseEventRouter) (pressed : Bool) (n : ℕ) :
    r.window_event (.mouseInput pressed (.other n)) = (r, emptyLog r, false) := rfl

/-- C5 (counterexample): the claim says the third and fourth cursor moves
(a re-entry at (50,50), then (60,60)) produce zero additional hover events.
The re-entry dispatches one more HoveringStart: containment is true while the
stored hover flag was reset by the exit, so the full four-event log has three
hover events, not two. -/
theorem c5_counterexample :
    runLogs routerOne hoverEvents
      = [[{ kind := .hoveringStart, cursor_position := ⟨.fin 50, .fin 50⟩ },
          { kind := .hoveringFinish, cursor_position := ⟨.fin 150, .fin 50⟩ },
          { kind := .hoveringStart, cursor_position := ⟨.fin 50, .fin 50⟩ }]]
    ∧ eventLog (runState routerOne [.cursorMoved 50 50, .cursorMoved 150 50])
        (.cursorMoved 50 50)
      ≠ [[]] := by
  decide

/-- C5 (amended): the first two moves dispatch exactly one HoveringStart then
one HoveringFinish; the re-entry at (50,50) dispatches exactly one additional
HoveringStart (its containment differs from the stored flag); the final inside
move (60,60) dispatches nothing; and in general a scan dispatches a hover
notification to a listener exactly when the containment test differs from the
stored `is_hovered` flag. -/
theorem c5_amended :
    runLogs routerOne [.cursorMoved 50 50, .cursorMoved 150 50]
      = [[{ kind := .hoveringStart, cursor_position := ⟨.fin 50, .fin 50⟩ },
          { kind := .hoveringFinish, cursor_position := ⟨.fin 150, .fin 50⟩ }]]
    ∧ runLogs routerOne hoverEvents
      = [[{ kind := .hoveringStart, cursor_position := ⟨.fin 50, .fin 50⟩ },
          { kind := .hoveringFinish, cursor_position := ⟨.fin 150, .fin 50⟩ },
          { kind := .hoveringStart, cursor_position := ⟨.fin 50, .fin 50⟩ }]]
    ∧ eventLog (runState routerOne [.cursorMoved 50 50, .cursorMoved 150 50, .cursorMoved 50 50])
        (.cursorMoved 60 60) = [[]]
    ∧ (∀ (c : Point2) (raw : List Bool) (l : Listener),
        ((scanListener c raw l).2.filter fun e => e.kind.isHover)
          = if l.bounds.contains c ≠ l.is_hovered
            then [{ kind := if l.bounds.contains c then .hoveringStart else .hoveringFinish,
                    cursor_position := c }]
            else []) := by
  refine ⟨by decide, by decide, by decide, ?_⟩
  intro c raw l
  obtain ⟨bnds, hov, bs⟩ := l
  cases hcont : Bounds.contains bnds c <;> cases hov <;>
    simp [scanListener, hcont, filter_hover_map_wrap, List.filter_append,
      MouseEventKind.isHover, List.filter_cons] <;>
    exact fun a ha => scanButtons_no_hover _ _ raw 0 bs a ha

/-- C7 (counterexample): the claim expects x-origins 0, 60, 150, but with the
builder's default Center alpha alignment the leftover 320 of width 500 puts a
leading offset of 160 before the first subview, so the first x-origin is 160,
not 0. -/
theorem c7_counterexample :
    (stackCentered.apply_bounds
        (Bounds.from_scalars (.fin 0) (.fin 0) (.fin 500) (.fin 20)))[0]?
      = some (Bounds.from_scalars (.fin 160) (.fin 0) (.fin 50) (.fin 20))
    ∧ Fl.fin 160 ≠ Fl.fin 0 := by
  decide

/-- C7 (amended): with the alpha alignment set to Leading the claim's numbers
hold: bounds of width 500 place the three subviews at x-origins 0, 60, 150
(occupied width 180, all beta offsets 0); bounds of width 100 scale each
placed width by 100/180, and the three widths plus the two scaled paddings
sum to at most 100. -/
theorem c7_amended :
    stackLeading.apply_bounds (Bounds.from_scalars (.fin 0) (.fin 0) (.fin 500) (.fin 20))
      = [Bounds.from_scalars (.fin 0) (.fin 0) (.fin 50) (.fin 20),
         Bounds.from_scalars (.fin 60) (.fin 0) (.fin 80) (.fin 20),
         Bounds.from_scalars (.fin 150) (.fin 0) (.fin 30) (.fin 20)]
    ∧ ((stackLeading.apply_bounds
          (Bounds.from_scalars (.fin 0) (.fin 0) (.fin 500) (.fin 20)))[2]?).map Bounds.x_max
      = some (.fin 180)
    ∧ stackLeading.apply_bounds (Bounds.from_scalars (.fin 0) (.fin 0) (.fin 100) (.fin 20))
      = [Bounds.from_scalars (.fin 0) (.fin 0) (.fin (250/9)) (.fin 20),
         Bounds.from_scalars (.fin (100/3)) (.fin 0) (.fin (400/9)) (.fin 20),
         Bounds.from_scalars (.fin (250/3)) (.fin 0) (.fin (50/3)) (.fin 20)]
    ∧ (stackLeading.apply_bounds
          (Bounds.from_scalars (.fin 0) (.fin 0) (.fin 100) (.fin 20))).map Bounds.width
      = [Fl.fin 50 * .fin (100/180), Fl.fin 80 * .fin (100/180), Fl.fin 30 * .fin (100/180)]
    ∧ Fl.le
        (((stackLeading.apply_bounds
            (Bounds.from_scalars (.fin 0) (.fin 0) (.fin 100) (.fin 20))).map
              Bounds.width).foldl Fl.add (.fin 0)
          + Fl.fin 2 * (Fl.fin 10 * .fin (100/180)))
        (.fin 100) = true := by
  refine ⟨by decide, by decide, by decide, by decide, by decide⟩

/-- C3 (counterexample): a container whose left padding is `Spread` (all other
paddings `Fixed(0)`, spread ratio 1/2, finite 10 by 10 subview) has preferred
width `ratio * infinity = +infinity`, not the finite fixed/ratio-only value 10
the claim asserts. -/
theorem c3_counterexample :
    (containerSpreadLeft.preferred_size).width = .pinf
    ∧ (containerSpreadLeft.preferred_size).width.isFinite = false
    ∧ (containerSpreadLeft.preferred_size).width
        ≠ paddingAlone containerSpreadLeft.padding_left (.fin 10) + .fin 10
            + paddingAlone containerSpreadLeft.padding_right (.fin 10) := by
  decide

theorem finNS_ne_spread (p : ContainerPadding) (hp : p.isFiniteNonSpread = true) :
    p ≠ .spread := by
  cases p <;> simp [ContainerPadding.isFiniteNonSpread] at hp ⊢

theorem padding_eval_fin (p : ContainerPadding) (hp : p.isFiniteNonSpread = true) (w : Q) :
    ∃ x : Q, paddingAlone p (.fin w) = .fin x := by
  cases p with
  | fixed f =>
    cases f with
    | fin q => exact ⟨q, rfl⟩
    | pinf => simp [ContainerPadding.isFiniteNonSpread] at hp
    | ninf => simp [ContainerPadding.isFiniteNonSpread] at hp
    | nan => simp [ContainerPadding.isFiniteNonSpread] at hp
  | ratioOfViewSize f =>
    cases f with
    | fin q => exact ⟨q * w, rfl⟩
    | pinf => simp [ContainerPadding.isFiniteNonSpread] at hp
    | ninf => simp [ContainerPadding.isFiniteNonSpread] at hp
    | nan => simp [ContainerPadding.isFiniteNonSpread] at hp
  | spread => simp [ContainerPadding.isFiniteNonSpread] at hp

theorem container_padding_nonspread (pl pr : ContainerPadding)
    (hl : pl ≠ .spread) (hr : pr ≠ .spread) (sr v rem : Fl) :
    Container.padding pl pr sr v rem = (paddingAlone pl v, paddingAlone pr v) := by
  cases pl <;> cases pr <;> first | rfl | exact absurd rfl hl | exact absurd rfl hr

theorem container_padding_spread_left (pr : ContainerPadding) (hr : pr ≠ .spread)
    (sr v rem : Fl) :
    Container.padding .spread pr sr v rem = (rem - paddingAlone pr v, paddingAlone pr v) := by
  cases pr <;> first | rfl | exact absurd rfl hr

theorem container_padding_spread_right (pl : ContainerPadding) (hl : pl ≠ .spread)
    (sr v rem : Fl) :
    Container.padding pl .spread sr v rem = (paddingAlone pl v, rem - paddingAlone pl v) := by
  cases pl <;> first | rfl | exact absurd rfl hl

theorem Fl.fin_mul_pinf (q : Q) (hq : 0 < q) : Fl.fin q * Fl.pinf = Fl.pinf := by
  show Fl.mul (.fin q) .pinf = .pinf
  simp [Fl.mul, hq]

theorem preferred_axis_cases (pl pr : ContainerPadding) (sr : Fl) (w : Q) :
    (pl.isFiniteNonSpread = true → pr.isFiniteNonSpread = true →
      ((Container.padding pl pr sr (.fin w) .pinf).1 + .fin w
          + (Container.padding pl pr sr (.fin w) .pinf).2
        = paddingAlone pl (.fin w) + .fin w + paddingAlone pr (.fin w))
      ∧ ((Container.padding pl pr sr (.fin w) .pinf).1 + .fin w
          + (Container.padding pl pr sr (.fin w) .pinf).2).isFinite = true)
    ∧ (pl = .spread → pr.isFiniteNonSpread = true →
        (Container.padding pl pr sr (.fin w) .pinf).1 + .fin w
          + (Container.padding pl pr sr (.fin w) .pinf).2 = .pinf)
    ∧ (pl.isFiniteNonSpread = true → pr = .spread →
        (Container.padding pl pr sr (.fin w) .pinf).1 + .fin w
          + (Container.padding pl pr sr (.fin w) .pinf).2 = .pinf)
    ∧ (pl = .spread → pr = .spread →
        ∀ q, sr = .fin q → 0 < q →
          (Container.padding pl pr sr (.fin w) .pinf).1 + .fin w
            + (Container.padding pl pr sr (.fin w) .pinf).2 = .pinf) := by
  refine ⟨?_, ?_, ?_, ?_⟩
  · intro hl hr
    obtain ⟨xl, hxl⟩ := padding_eval_fin pl hl w
    obtain ⟨xr, hxr⟩ := padding_eval_fin pr hr w
    rw [container_padding_nonspread pl pr (finNS_ne_spread pl hl) (finNS_ne_spread pr hr)]
    refine ⟨rfl, ?_⟩
    rw [hxl, hxr]
    rfl
  · intro hl hr
    subst hl
    obtain ⟨xr, hxr⟩ := padding_eval_fin pr hr w
    rw [container_padding_spread_left pr (finNS_ne_spread pr hr), hxr]
    rfl
  · intro hl hr
    subst hr
    obtain ⟨xl, hxl⟩ := padding_eval_fin pl hl w
    rw [container_padding_spread_right pl (finNS_ne_spread pl hl), hxl]
    rfl
  · intro hl hr q hsr hq
    subst hl
    subst hr
    subst hsr
    show (Container.padding .spread .spread (.fin q) (.fin w) .pinf).1 + .fin w
      + (Container.padding .spread .spread (.fin q) (.fin w) .pinf).2 = .pinf
    have : Container.padding .spread .spread (.fin q) (.fin w) .pinf
        = (Fl.fin q * .pinf, Fl.fin q * .pinf) := rfl
    rw [this, Fl.fin_mul_pinf q hq]
    rfl

/-- C3 (amended): `preferred_size` is the subview size (or override) plus the
two edges' paddings evaluated against infinite remaining space, but a `Spread`
edge contributes `+infinity` (`ratio * infinity`, or `infinity` minus the
opposite finite padding), not zero: on an axis whose two paddings are
finite non-Spread policies the preferred length equals what the fixed/ratio
paddings alone would give and is finite, while an axis with a `Spread` edge
(with positive spread ratio when both edges are Spread) has preferred length
`+infinity`. -/
theorem c3_amended (c : Container) (w h : Q)
    (hw : (c.override_size.getD c.subview_size).width = .fin w)
    (hh : (c.override_size.getD c.subview_size).height = .fin h) :
    ((c.padding_left.isFiniteNonSpread = true → c.padding_right.isFiniteNonSpread = true →
        (c.preferred_size.width
            = paddingAlone c.padding_left (.fin w) + .fin w
              + paddingAlone c.padding_right (.fin w))
          ∧ c.preferred_size.width.isFinite = true)
      ∧ (c.padding_left = .spread → c.padding_right.isFiniteNonSpread = true →
          c.preferred_size.width = .pinf)
      ∧ (c.padding_left.isFiniteNonSpread = true → c.padding_right = .spread →
          c.preferred_size.width = .pinf)
      ∧ (c.padding_left = .spread → c.padding_right = .spread →
          ∀ q, c.spread_ratio_horizontal = .fin q → 0 < q → c.preferred_size.width = .pinf))
    ∧ ((c.padding_top.isFiniteNonSpread = true → c.padding_bottom.isFiniteNonSpread = true →
        (c.preferred_size.height
            = paddingAlone c.padding_top (.fin h) + .fin h
              + paddingAlone c.padding_bottom (.fin h))
          ∧ c.preferred_size.height.isFinite = true)
      ∧ (c.padding_top = .spread → c.padding_bottom.isFiniteNonSpread = true →
          c.preferred_size.height = .pinf)
      ∧ (c.padding_top.isFiniteNonSpread = true → c.padding_bottom = .spread →
          c.preferred_size.height = .pinf)
      ∧ (c.padding_top = .spread → c.padding_bottom = .spread →
          ∀ q, c.spread_ratio_vertical = .fin q → 0 < q → c.preferred_size.height = .pinf)) := by
  have ew : c.preferred_size.width
      = (Container.padding c.padding_left c.padding_right c.spread_ratio_horizontal
          (.fin w) .pinf).1 + .fin w
        + (Container.padding c.padding_left c.padding_right c.spread_ratio_horizontal
          (.fin w) .pinf).2 := by
    simp [Container.preferred_size, hw]
  have eh : c.preferred_size.height
      = (Container.padding c.padding_top c.padding_bottom c.spread_ratio_vertical
          (.fin h) .pinf).1 + .fin h
        + (Container.padding c.padding_top c.padding_bottom c.spread_ratio_vertical
          (.fin h) .pinf).2 := by
    simp [Container.preferred_size, hh]
  have hW := preferred_axis_cases c.padding_left c.padding_right c.spread_ratio_horizontal w
  have hH := preferred_axis_cases c.padding_top c.padding_bottom c.spread_ratio_vertical h
  rw [ew, eh]
  exact ⟨hW, hH⟩

/-- C3 (witness for the amended theorem): a concrete container with a fixed
left padding, ratio right padding, Spread top padding and fixed bottom
padding: the preferred width is the finite fixed/ratio sum and the preferred
height is infinite. -/
theorem c3_witness :
    ((containerMixed.preferred_size.width
        = paddingAlone containerMixed.padding_left (.fin 10) + .fin 10
          + paddingAlone containerMixed.padding_right (.fin 10))
      ∧ containerMixed.preferred_size.width.isFinite = true)
    ∧ containerMixed.preferred_size.height = .pinf :=
  ⟨(c3_amended containerMixed 10 20 (by decide) (by decide)).1.1 (by decide) (by decide),
   (c3_amended containerMixed 10 20 (by decide) (by decide)).2.2.1 (by decide) (by decide)⟩

theorem option_map_fin_getD (fp : Option Q) :
    (fp.map Fl.fin).getD (.fin 0) = .fin (fp.getD 0) := by
  cases fp <;> rfl

/-- C8: for every stack built from a list of subview sizes, the gap count is
`n - 1` (saturating at 0) under Interpadded and `n + 1` under Omnipadded; the
preferred size on the layout axis is the sum of the subview alpha-lengths plus
gap count times the fixed padding (0 when none is configured), and on the
cross axis it is the maximum subview beta-length, starting from 0 for the
empty stack. -/
theorem c8_gap_count_and_preferred_size (axis : Axis) (aa ab : StackAlignment)
    (pt : StackPaddingType) (fp : Option Q) (st : Bool) (szs : List (Q × Q)) :
    (Stack.n_paddings
        (mkStack axis aa ab pt (fp.map Fl.fin) st
          (szs.map fun p => RectSize.new_on_axis axis (.fin p.1) (.fin p.2))).subviews.length pt
      = (match pt with
         | .interpadded => szs.length - 1
         | .omnipadded => szs.length + 1))
    ∧ (mkStack axis aa ab pt (fp.map Fl.fin) st
        (szs.map fun p => RectSize.new_on_axis axis (.fin p.1) (.fin p.2))).preferred_size
      = RectSize.new_on_axis axis
          (.fin ((szs.map Prod.fst).foldl Q.add 0
            + Q.ofNat (Stack.n_paddings szs.length pt) * fp.getD 0))
          (.fin ((szs.map Prod.snd).foldl Q.max 0)) := by
  have key := mkStack_foldl axis szs
    { Stack.new axis with
      alignment_alpha := aa
      alignment_beta := ab
      padding_type := pt
      fixed_padding := fp.map Fl.fin
      shrink_together := st } 0 0 rfl rfl rfl
  obtain ⟨k1, k2, k3, k4, k5, k6⟩ := key
  have hlen : (mkStack axis aa ab pt (fp.map Fl.fin) st
      (szs.map fun p => RectSize.new_on_axis axis (.fin p.1) (.fin p.2))).subviews.length
      = szs.length := by
    show _ = szs.length
    rw [mkStack, k4]
    simp [Stack.new]
  constructor
  · rw [hlen]
    cases pt <;> rfl
  · show Stack.preferred_size _ = _
    rw [Stack.preferred_size]
    rw [mkStack] at hlen ⊢
    rw [hlen, k1, k2, k3, k5, k6, option_map_fin_getD]
    rfl

/-- C9: dropping a `ListenerHandle` while its router is alive removes exactly
its own listener slot: the slot becomes empty, every other slot is untouched,
any subsequent sequence of window events dispatches no event to the removed
slot, and every other listener receives exactly the dispatches and reaches
exactly the slot state it would have reached without the removal; dropping a
handle, or calling `update_bounds` on one, after the router is gone is a
silent no-op. -/
theorem c9_listener_handle_drop (r : MouseEventRouter) (i : ℕ) (b : Bounds)
    (es : List WindowEvent) :
    ListenerHandle.drop (some r) ⟨i⟩ = some (r.unregister_listener i)
    ∧ (i < r.listeners.length → (r.unregister_listener i).listeners[i]? = some none)
    ∧ (∀ j, j ≠ i → (r.unregister_listener i).listeners[j]? = r.listeners[j]?)
    ∧ (i < r.listeners.length →
        (runLogs (r.unregister_listener i) es)[i]? = some [])
    ∧ (∀ j, j ≠ i →
        (runLogs (r.unregister_listener i) es)[j]? = (runLogs r es)[j]?
        ∧ (runState (r.unregister_listener i) es).listeners[j]?
            = (runState r es).listeners[j]?)
    ∧ ListenerHandle.drop none ⟨i⟩ = none
    ∧ ListenerHandle.update_bounds none ⟨i⟩ b = none := by
  refine ⟨rfl, ?_, ?_, ?_, ?_, rfl, rfl⟩
  · intro hi
    exact List.getElem?_set_self hi
  · intro j hj
    exact List.getElem?_set_ne (fun h => hj h.symm)
  · intro hi
    rw [runLogs_unregister]
    exact List.getElem?_set_self (by rw [runLogs_length]; exact hi)
  · intro j hj
    constructor
    · rw [runLogs_unregister]
      exact List.getElem?_set_ne (fun h => hj h.symm)
    · rw [runState_unregister]
      exact List.getElem?_set_ne (fun h => hj h.symm)

/-- C9 (witness): in a two-listener router, after dropping the handle with
index 0 a run of the four hover events dispatches nothing to slot 0 and the
same events to slot 1 as the undisturbed router. -/
theorem c9_witness :
    (runLogs (routerTwo.unregister_listener 0) hoverEvents)[0]? = some []
    ∧ (runLogs (routerTwo.unregister_listener 0) hoverEvents)[1]?
        = (runLogs routerTwo hoverEvents)[1]? :=
  ⟨(c9_listener_handle_drop routerTwo 0 (Bounds.from_scalars (.fin 0) (.fin 0) (.fin 1) (.fin 1))
      hoverEvents).2.2.2.1 (by decide),
   ((c9_listener_handle_drop routerTwo 0 (Bounds.from_scalars (.fin 0) (.fin 0) (.fin 1) (.fin 1))
      hoverEvents).2.2.2.2.1 1 (by decide)).1⟩

/-- C4 (counterexample): a falling edge of the Back button (raw Back released
after being pressed inside) dispatches a ButtonUp carrying Forward, not Back:
the scan loop's index-to-button mapping swaps Back and Forward relative to the
raw-state indices, so the dispatched event does not carry the edge's button. -/
theorem c4_counterexample :
    eventLog (runState routerOne [.cursorMoved 50 50, .mouseInput true .back])
        (.mouseInput false .back)
      = [[{ kind := .buttonUp .forward true, cursor_position := ⟨.fin 50, .fin 50⟩ }]]
    ∧ MouseButton.forward ≠ MouseButton.back := by
  decide


theorem scanButtons_falling (inside is_hovered_before : Bool) :
    ∀ (raw : List Bool) (recorded : List Bool) (i k : ℕ),
      raw[k]? = some false → recorded[k]? = some true →
        MouseEventKind.buttonUp (scanIndexButton (i + k)) inside
            ∈ (scanButtons inside is_hovered_before i raw recorded).2
        ∧ (scanButtons inside is_hovered_before i raw recorded).1[k]? = some false := by
  intro raw
  induction raw with
  | nil => intro recorded i k h1 h2; simp at h1
  | cons s raws ih =>
    intro recorded i k h1 h2
    cases recorded with
    | nil => simp at h2
    | cons ls lss =>
      cases k with
      | zero =>
        simp only [List.getElem?_cons_zero, Option.some.injEq] at h1 h2
        subst h1; subst h2
        simp [scanButtons]
      | succ k =>
        simp only [List.getElem?_cons_succ] at h1 h2
        have key := ih lss (i + 1) k h1 h2
        have hidx : i + (k + 1) = (i + 1) + k := by omega
        rw [hidx]
        simp only [scanButtons]
        split_ifs with hc1 hc2
        · exact ⟨List.mem_cons_of_mem _ key.1, by simpa using key.2⟩
        · exact ⟨List.mem_cons_of_mem _ key.1, by simpa using key.2⟩
        · exact ⟨by simpa using key.1, by simpa using key.2⟩

theorem scanButtons_rising_inside (is_hovered_before : Bool) :
    ∀ (raw : List Bool) (recorded : List Bool) (i k : ℕ),
      raw[k]? = some true → recorded[k]? = some false →
        MouseEventKind.buttonDown (scanIndexButton (i + k)) is_hovered_before
            ∈ (scanButtons true is_hovered_before i raw recorded).2
        ∧ (scanButtons true is_hovered_before i raw recorded).1[k]? = some true := by
  intro raw
  induction raw with
  | nil => intro recorded i k h1 h2; simp at h1
  | cons s raws ih =>
    intro recorded i k h1 h2
    cases recorded with
    | nil => simp at h2
    | cons ls lss =>
      cases k with
      | zero =>
        simp only [List.getElem?_cons_zero, Option.some.injEq] at h1 h2
        subst h1; subst h2
        simp [scanButtons]
      | succ k =>
        simp only [List.getElem?_cons_succ] at h1 h2
        have key := ih lss (i + 1) k h1 h2
        have hidx : i + (k + 1) = (i + 1) + k := by omega
        rw [hidx]
        simp only [scanButtons]
        split_ifs with hc1 hc2
        · exact ⟨List.mem_cons_of_mem _ key.1, by simpa using key.2⟩
        · exact ⟨List.mem_cons_of_mem _ key.1, by simpa using key.2⟩
        · exact ⟨by simpa using key.1, by simpa using key.2⟩

theorem scanButtons_rising_outside (is_hovered_before : Bool) :
    ∀ (raw : List Bool) (recorded : List Bool) (i k : ℕ),
      raw[k]? = some true → recorded[k]? = some false →
        (scanButtons false is_hovered_before i raw recorded).1[k]? = some false := by
  intro raw
  induction raw with
  | nil => intro recorded i k h1 h2; simp at h1
  | cons s raws ih =>
    intro recorded i k h1 h2
    cases recorded with
    | nil => simp at h2
    | cons ls lss =>
      cases k with
      | zero =>
        simp only [List.getElem?_cons_zero, Option.some.injEq] at h1 h2
        subst h1; subst h2
        simp [scanButtons]
      | succ k =>
        simp only [List.getElem?_cons_succ] at h1 h2
        have key := ih lss (i + 1) k h1 h2
        simp only [scanButtons]
        split_ifs with hc1 hc2 <;> simpa using key

theorem scanButtons_no_buttonDown_outside (is_hovered_before : Bool) :
    ∀ (raw : List Bool) (recorded : List Bool) (i : ℕ) (b : MouseButton) (si : Bool),
      MouseEventKind.buttonDown b si
        ∉ (scanButtons false is_hovered_before i raw recorded).2 := by
  intro raw
  induction raw with
  | nil => intro recorded i b si h; simp [scanButtons] at h
  | cons s raws ih =>
    intro recorded i b si h
    cases recorded with
    | nil => simp [scanButtons] at h
    | cons ls lss =>
      simp only [scanButtons] at h
      split_ifs at h with hc1 hc2
      · rcases List.mem_cons.mp h with heq | htail
        · exact MouseEventKind.noConfusion heq
        · exact ih lss (i + 1) b si htail
      · simp at hc2
      · exact ih lss (i + 1) b si h

theorem scanButtons_buttonUp_sources (inside is_hovered_before : Bool) :
    ∀ (raw : List Bool) (recorded : List Bool) (i : ℕ) (b : MouseButton) (ins : Bool),
      MouseEventKind.buttonUp b ins ∈ (scanButtons inside is_hovered_before i raw recorded).2 →
        ∃ j, j < recorded.length ∧ recorded[j]? = some true ∧ b = scanIndexButton (i + j) := by
  intro raw
  induction raw with
  | nil => intro recorded i b ins h; simp [scanButtons] at h
  | cons s raws ih =>
    intro recorded i b ins h
    cases recorded with
    | nil => simp [scanButtons] at h
    | cons ls lss =>
      simp only [scanButtons] at h
      split_ifs at h with hc1 hc2
      · rcases List.mem_cons.mp h with heq | htail
        · refine ⟨0, by simp, ?_, ?_⟩
          · have hls : ls = true := by
              simp at hc1
              exact hc1.2
            simp [hls]
          · cases heq
            simp
        · obtain ⟨j, hj, hrec, hbtn⟩ := ih lss (i + 1) b ins htail
          refine ⟨j + 1, by simpa using hj, by simpa using hrec, ?_⟩
          rw [hbtn]
          congr 1
          omega
      · rcases List.mem_cons.mp h with heq | htail
        · exact MouseEventKind.noConfusion heq
        · obtain ⟨j, hj, hrec, hbtn⟩ := ih lss (i + 1) b ins htail
          refine ⟨j + 1, by simpa using hj, by simpa using hrec, ?_⟩
          rw [hbtn]
          congr 1
          omega
      · obtain ⟨j, hj, hrec, hbtn⟩ := ih lss (i + 1) b ins h
        refine ⟨j + 1, by simpa using hj, by simpa using hrec, ?_⟩
        rw [hbtn]
        congr 1
        omega

theorem scanIndexButton_inj (j k : ℕ) (hj : j < 5) (hk : k < 5)
    (h : scanIndexButton j = scanIndexButton k) : j = k := by
  interval_cases j <;> interval_cases k <;> simp_all [scanIndexButton]

/-- C4 (amended): during a scan with known cursor, for each listener slot and
each of the five button indices, with the dispatched button being the scan
loop's button for that index (Left/Right/Middle for indices 0-2, but Forward
for index 3 and Back for index 4, swapped relative to the raw-state indices):
a falling edge always dispatches ButtonUp with `inside` equal to the
listener's current containment of the cursor and records the released state; a
rising edge dispatches ButtonDown only when the cursor is inside, with
`started_inside` equal to the pre-scan hover flag, and records the pressed
state; a rising edge while outside dispatches nothing for that button and
leaves the recorded state unchanged. -/
theorem c4_amended (r : MouseEventRouter) (c : Point2) (hc : r.cursor_position = some c)
    (i : ℕ) (l : Listener) (hl : r.listeners[i]? = some (some l))
    (ha : l.button_states.length = 5) (k : Fin 5) :
    ((r.scan_events).1.listeners)[i]? = some (some (scanListener c r.button_states l).1)
    ∧ ((r.scan_events).2.1)[i]? = some ((scanListener c r.button_states l).2)
    ∧ ((r.button_states[(k : ℕ)]? = some false → l.button_states[(k : ℕ)]? = some true →
        MouseEventKind.buttonUp (scanIndexButton (k : ℕ)) (l.bounds.contains c)
            ∈ ((scanListener c r.button_states l).2.map MouseEvent.kind)
          ∧ ((scanListener c r.button_states l).1.button_states)[(k : ℕ)]? = some false)
      ∧ (r.button_states[(k : ℕ)]? = some true → l.button_states[(k : ℕ)]? = some false →
          l.bounds.contains c = true →
          MouseEventKind.buttonDown (scanIndexButton (k : ℕ)) l.is_hovered
              ∈ ((scanListener c r.button_states l).2.map MouseEvent.kind)
            ∧ ((scanListener c r.button_states l).1.button_states)[(k : ℕ)]? = some true)
      ∧ (r.button_states[(k : ℕ)]? = some true → l.button_states[(k : ℕ)]? = some false →
          l.bounds.contains c = false →
          (∀ si : Bool, MouseEventKind.buttonDown (scanIndexButton (k : ℕ)) si
              ∉ ((scanListener c r.button_states l).2.map MouseEvent.kind))
          ∧ (∀ ins : Bool, MouseEventKind.buttonUp (scanIndexButton (k : ℕ)) ins
              ∉ ((scanListener c r.button_states l).2.map MouseEvent.kind))
          ∧ ((scanListener c r.button_states l).1.button_states)[(k : ℕ)]? = some false)) := by
  refine ⟨?_, ?_, ?_, ?_, ?_⟩
  · simp [MouseEventRouter.scan_events, hc, scanSlot, List.getElem?_map, hl]
  · simp [MouseEventRouter.scan_events, hc, scanSlotLog, List.getElem?_map, hl]
  · intro h1 h2
    have key := scanButtons_falling (l.bounds.contains c) l.is_hovered
      r.button_states l.button_states 0 (k : ℕ) h1 h2
    constructor
    · simp only [scanListener, kinds_map_wrap]
      refine List.mem_append.mpr (Or.inr ?_)
      simpa using key.1
    · simpa [scanListener] using key.2
  · intro h1 h2 hin
    have key := scanButtons_rising_inside l.is_hovered
      r.button_states l.button_states 0 (k : ℕ) h1 h2
    constructor
    · simp only [scanListener, kinds_map_wrap, hin]
      refine List.mem_append.mpr (Or.inr ?_)
      simpa using key.1
    · simp only [scanListener, hin]
      simpa using key.2
  · intro h1 h2 hin
    refine ⟨?_, ?_, ?_⟩
    · intro si hmem
      simp only [scanListener, kinds_map_wrap, hin] at hmem
      rcases List.mem_append.mp hmem with hdn | hdn
      · cases hhov : l.is_hovered <;> simp [hhov] at hdn
      · exact scanButtons_no_buttonDown_outside l.is_hovered
          r.button_states l.button_states 0 (scanIndexButton (k : ℕ)) si hdn
    · intro ins hmem
      simp only [scanListener, kinds_map_wrap, hin] at hmem
      rcases List.mem_append.mp hmem with hup | hup
      · cases hhov : l.is_hovered <;> simp [hhov] at hup
      · obtain ⟨j, hj, hrec, hbtn⟩ := scanButtons_buttonUp_sources false l.is_hovered
          r.button_states l.button_states 0 (scanIndexButton (k : ℕ)) ins hup
        have hj5 : j < 5 := by rw [ha] at hj; exact hj
        have hjk : (k : ℕ) = j := by
          refine scanIndexButton_inj (k : ℕ) j k.isLt hj5 ?_
          simpa using hbtn
        rw [← hjk] at hrec
        rw [h2] at hrec
        exact Option.noConfusion hrec (fun h => Bool.noConfusion h)
    · have key := scanButtons_rising_outside l.is_hovered
        r.button_states l.button_states 0 (k : ℕ) h1 h2
      simp only [scanListener, hin]
      simpa using key

/-- C4 (witness for the amended theorem): in a router with all raw buttons
released and a hovered listener that has the left button (index 0) recorded as
pressed, the scan dispatches a ButtonUp for index 0 with the current
containment and resets the recorded state. -/
theorem c4_witness :
    MouseEventKind.buttonUp (scanIndexButton 0)
        (listenerPressed.bounds.contains ⟨.fin 50, .fin 50⟩)
      ∈ ((scanListener ⟨.fin 50, .fin 50⟩ routerPressed.button_states listenerPressed).2.map
          MouseEvent.kind)
    ∧ ((scanListener ⟨.fin 50, .fin 50⟩ routerPressed.button_states
        listenerPressed).1.button_states)[(0 : ℕ)]? = some false :=
  (c4_amended routerPressed ⟨.fin 50, .fin 50⟩ rfl 0 listenerPressed rfl rfl 0).2.2.1
    (by decide) (by decide)
